import Mathlib

/-!
Verification of the BLACKSKYMD package manifest (`setup.py`).

The repository consists of a single declarative build manifest.  We embed
the manifest's literal fields, the version/requirement grammar that the
packaging tool applies to them, and (modelled from the spec, since the
packaging tool itself is external to the repository) the install process
that consumes the manifest.
-/

namespace BlackskyMD

/-! ### Literal fields of `setup.py` -/

/-- `name="blacksky-md"` (setup.py line 4). -/
def name : String := "blacksky-md"

/-- `version="1.0.0"` (setup.py line 5). -/
def version : String := "1.0.0"

/-- `install_requires=[...]` (setup.py lines 7-10): the two dependency
constraint strings exactly as written in the source. -/
def install_requires : List String := ["twilio>=9.4.6", "trafilatura>=2.0.0"]

/-- `python_requires=">=3.11"` (setup.py line 11). -/
def python_requires : String := ">=3.11"

/-- The files of the supplied repository tree: the repository contains
only `setup.py`. -/
def repoFiles : List String := ["setup.py"]

/-! ### Version grammar and ordering

A release version is a dot-separated list of numeric components.  The
packaging ordering compares versions component-wise, padding the shorter
version with zeros (so `[1]` and `[1,0]` denote the same point). -/

/-- A parsed version: its list of numeric components. -/
abbrev Version := List Nat

/-- `verLe a b` decides `a ≤ b` in the packaging version order:
lexicographic on components, with a missing component reading as `0`. -/
def verLe : Version → Version → Bool
  | [], _ => true
  | x :: xs, [] => x == 0 && verLe xs []
  | x :: xs, y :: ys => x < y || (x == y && verLe xs ys)

/-- Split a character list at every occurrence of a single character. -/
def splitOnChar (c : Char) : List Char → List (List Char)
  | [] => [[]]
  | x :: xs =>
    if x = c then [] :: splitOnChar c xs
    else
      match splitOnChar c xs with
      | [] => [[x]]
      | y :: ys => (x :: y) :: ys

/-- Accumulate decimal digits into a number; fails at a non-digit. -/
def parseNatAux : List Char → Nat → Option Nat
  | [], acc => some acc
  | c :: cs, acc =>
    if c.isDigit then parseNatAux cs (acc * 10 + (c.toNat - 48)) else none

/-- Parse a non-empty all-digit character list as a decimal number. -/
def parseNat? : List Char → Option Nat
  | [] => none
  | cs => parseNatAux cs 0

/-- Parse a dot-separated numeric version string, e.g. `"9.4.6"` to
`[9, 4, 6]`; fails when any component is empty or non-numeric. -/
def parseVersion (s : String) : Option Version :=
  (splitOnChar '.' s.toList).mapM parseNat?

/-- A parsed dependency requirement: a library name together with the
declared minimum version. -/
structure Requirement where
  lib : String
  minVer : Version
  deriving DecidableEq, Repr

/-- Split a character list at every occurrence of the two-character
separator `>=`. -/
def splitOnGe : List Char → List (List Char)
  | [] => [[]]
  | '>' :: '=' :: rest => [] :: splitOnGe rest
  | x :: xs =>
    match splitOnGe xs with
    | [] => [[x]]
    | y :: ys => (x :: y) :: ys

/-- Parse the version part of a constraint given as characters. -/
def parseVersionChars (cs : List Char) : Option Version :=
  (splitOnChar '.' cs).mapM parseNat?

/-- Parse a dependency constraint string of the form `name>=version`
into a `Requirement`; the name must be non-empty and the version must
parse. -/
def parseRequirement (s : String) : Option Requirement :=
  match splitOnGe s.toList with
  | [n, v] =>
    if n = [] then none
    else (parseVersionChars v).map (fun ver => ⟨⟨n⟩, ver⟩)
  | _ => none

/-- A version `v` satisfies a requirement exactly when it is at or above
the declared minimum. -/
def satisfiesReq (r : Requirement) (v : Version) : Bool :=
  verLe r.minVer v

/-- Parse an interpreter constraint of the form `>=version` (the library
name position is empty). -/
def parsePythonRequires (s : String) : Option Version :=
  match splitOnGe s.toList with
  | [[], v] => parseVersionChars v
  | _ => none

/-- An interpreter version satisfies the manifest's `python_requires`
constraint exactly when it is at or above the parsed lower bound. -/
def pythonOk (interp : Version) : Bool :=
  match parsePythonRequires python_requires with
  | some lo => verLe lo interp
  | none => false

/-- The manifest's dependency list, parsed. -/
def parsedRequires : List Requirement :=
  install_requires.filterMap parseRequirement

/-! ### The install process

Modelled from the spec: the tool that consumes the manifest is external to
the repository.  The spec describes its behaviour: check the interpreter
bound first, failing fast with a version-mismatch error before any
dependency resolution; then resolve each declared dependency against
the dependency index. -/

/-- Modelled from the spec: the dependency index is the set of published
releases available for each library name at install time. -/
structure DepIndex where
  releases : String → List Version

/-- The ways an installation can fail. -/
inductive InstallError
  | versionMismatch
  | resolutionFailure
  deriving DecidableEq, Repr

/-- Modelled from the spec: resolution picks, for each requirement, a
published release at or above the declared minimum (this model takes the
first such release; the spec only requires that some satisfying release
be chosen). -/
def resolveDep (idx : DepIndex) (r : Requirement) : Option (String × Version) :=
  (((idx.releases r.lib).filter (fun v => verLe r.minVer v)).head?).map
    (fun v => (r.lib, v))

/-- Modelled from the spec: resolve a list of requirements in order,
failing when any one of them has no satisfying published release. -/
def resolveAll (idx : DepIndex) : List Requirement → Option (List (String × Version))
  | [] => some []
  | r :: rs =>
    match resolveDep idx r, resolveAll idx rs with
    | some d, some ds => some (d :: ds)
    | _, _ => none

/-- Modelled from the spec: installation first checks the interpreter
bound, failing with a version-mismatch error before consulting the index,
and only then resolves every declared dependency. -/
def installPkg (interp : Version) (idx : DepIndex) :
    Except InstallError (List (String × Version)) :=
  if pythonOk interp then
    match resolveAll idx parsedRequires with
    | some deps => .ok deps
    | none => .error .resolutionFailure
  else .error .versionMismatch

/-- An install environment state: the packages currently installed, as
(library, version) pairs. -/
abbrev Env := List (String × Version)

/-- Modelled from the spec: applying a resolved dependency set to an
environment installs each resolved library, replacing any version of it
already present and keeping unrelated packages. -/
def applyResolved (deps : Env) (env : Env) : Env :=
  deps ++ env.filter (fun p => deps.all (fun d => d.1 != p.1))

/-- Modelled from the spec: one run of the packaging/install process
against the manifest.  A failed run leaves the environment unchanged. -/
def runInstall (interp : Version) (idx : DepIndex) (env : Env) : Env :=
  match installPkg interp idx with
  | .ok deps => applyResolved deps env
  | .error _ => env

/-! ### Package auto-discovery -/

/-- The file-name marker whose presence makes a directory an importable
package. -/
def initMarker : List Char := "/__init__.py".toList

/-- Modelled from the spec: the auto-discovery directive scans the
repository tree for importable sub-packages, i.e. the directories whose
`__init__.py` marker file is present; the tree is given as its list of
file paths and each discovered package is named by its directory. -/
def find_packages (files : List String) : List String :=
  files.filterMap (fun f =>
    let cs := f.toList
    if initMarker.isSuffixOf cs then
      some ⟨cs.take (cs.length - initMarker.length)⟩
    else none)

/-! ### The manifest script as a declarative artifact

An embedding of `setup.py` statement by statement, to state that
evaluating it performs nothing beyond handing a fixed metadata record to
the packaging tool. -/

/-- Expressions occurring in the manifest script. -/
inductive PyExpr
  | strLit (s : String)
  | listLit (ss : List String)
  | callFindPackages
  deriving DecidableEq, Repr

/-- The keyword arguments of the `setup(...)` call. -/
structure SetupArgs where
  nameArg : PyExpr
  versionArg : PyExpr
  packagesArg : PyExpr
  installRequiresArg : PyExpr
  pythonRequiresArg : PyExpr
  deriving DecidableEq, Repr

/-- Statements of the manifest script. -/
inductive PyStmt
  | importFrom (module : String) (names : List String)
  | funcDef (fname : String)
  | classDef (cname : String)
  | assign (target : String) (e : PyExpr)
  | callSetup (args : SetupArgs)
  deriving DecidableEq, Repr

/-- The manifest script `setup.py`, statement by statement: line 1 brings
in `setup` and `find_packages`, and lines 3-12 are a single `setup(...)`
call with five keyword arguments. -/
def setupScript : List PyStmt :=
  [ .importFrom "setuptools" ["setup", "find_packages"],
    .callSetup
      { nameArg := .strLit "blacksky-md"
        versionArg := .strLit "1.0.0"
        packagesArg := .callFindPackages
        installRequiresArg := .listLit ["twilio>=9.4.6", "trafilatura>=2.0.0"]
        pythonRequiresArg := .strLit ">=3.11" } ]

/-- Values of manifest expressions (all evaluation is pure). -/
inductive PyVal
  | vStr (s : String)
  | vList (ss : List String)
  deriving DecidableEq, Repr

/-- Evaluate a manifest expression; the only call is the package
auto-discovery applied to the repository tree. -/
def evalExpr : PyExpr → PyVal
  | .strLit s => .vStr s
  | .listLit ss => .vList ss
  | .callFindPackages => .vList (find_packages repoFiles)

/-- The fixed metadata record a manifest hands to the packaging tool. -/
structure MetadataRecord where
  mName : String
  mVersion : String
  mPackages : List String
  mInstallRequires : List String
  mPythonRequires : String
  deriving DecidableEq, Repr

/-- Evaluate the arguments of a `setup(...)` call into the metadata
record it hands over; fails if an argument has the wrong shape. -/
def evalSetupArgs (a : SetupArgs) : Option MetadataRecord :=
  match evalExpr a.nameArg, evalExpr a.versionArg, evalExpr a.packagesArg,
        evalExpr a.installRequiresArg, evalExpr a.pythonRequiresArg with
  | .vStr n, .vStr v, .vList ps, .vList irs, .vStr pr =>
    some ⟨n, v, ps, irs, pr⟩
  | _, _, _, _, _ => none

/-- Evaluate the script: the record handed to the packaging tool by its
first `setup(...)` call, if any. -/
def evalScript : List PyStmt → Option MetadataRecord
  | [] => none
  | .callSetup a :: _ => evalSetupArgs a
  | _ :: rest => evalScript rest

/-- The functions, classes and variables a script defines. -/
def definedNames : List PyStmt → List String
  | [] => []
  | .funcDef n :: rest => n :: definedNames rest
  | .classDef n :: rest => n :: definedNames rest
  | .assign n _ :: rest => n :: definedNames rest
  | _ :: rest => definedNames rest

/-- The declarative metadata record the spec describes: name, version,
discovered packages, dependency constraints, minimum interpreter
version.  (Stated from the spec's words, to be compared with the record
the script evaluates to.) -/
def declaredRecord : MetadataRecord :=
  { mName := "blacksky-md"
    mVersion := "1.0.0"
    mPackages := []
    mInstallRequires := ["twilio>=9.4.6", "trafilatura>=2.0.0"]
    mPythonRequires := ">=3.11" }

/-! ### Environment markers -/

/-- An install environment as seen by conditional dependency clauses: a
platform name and the interpreter version. -/
structure InstallEnv where
  platform : String
  interp : Version
  deriving DecidableEq, Repr

/-- Modelled from the spec: an environment marker (a conditional clause
after `;` in a constraint) makes inclusion depend on the environment.
The exact marker language is immaterial for this manifest, which contains
none; the model lets a marker test the platform name. -/
def evalMarker (env : InstallEnv) (m : List Char) : Bool :=
  m == env.platform.toList

/-- Modelled from the spec: the dependency constraints presented for
resolution in a given environment — a constraint with a marker is
presented only when its marker holds in the environment. -/
def presentedConstraints (env : InstallEnv) : List Requirement :=
  install_requires.filterMap (fun s =>
    match splitOnChar ';' s.toList with
    | [base] => parseRequirement ⟨base⟩
    | base :: m :: _ =>
      if evalMarker env m then parseRequirement ⟨base⟩ else none
    | [] => none)

/-- Concrete dependency index with one satisfying release per declared
library, used to witness the install theorems. -/
def sampleIdx : DepIndex :=
  ⟨fun n =>
    if n = "twilio" then [[9, 4, 6], [9, 5, 0]]
    else if n = "trafilatura" then [[2, 0, 0]]
    else []⟩

/-! ### Lemmas about the version order -/

/-- The version order is reflexive. -/
theorem verLe_refl (v : Version) : verLe v v = true := by
  induction v with
  | nil => rfl
  | cons x xs ih => simp [verLe, ih]

/-- A version at or below the empty version (all zeros) is at or below
every version. -/
theorem verLe_of_le_nil (xs : Version) :
    verLe xs [] = true → ∀ c, verLe xs c = true := by
  induction xs with
  | nil => intro _ c; rfl
  | cons x xs ih =>
    intro h c
    simp [verLe] at h
    obtain ⟨hx, hxs⟩ := h
    subst hx
    cases c with
    | nil => simp [verLe, hxs]
    | cons z zs =>
      simp [verLe]
      rcases Nat.eq_zero_or_pos z with hz | hz
      · exact Or.inr ⟨hz.symm, ih hxs zs⟩
      · exact Or.inl hz

/-- The version order is transitive. -/
theorem verLe_trans (a b c : Version)
    (hab : verLe a b = true) (hbc : verLe b c = true) : verLe a c = true := by
  induction a generalizing b c with
  | nil => rfl
  | cons x xs ih =>
    cases b with
    | nil => exact verLe_of_le_nil _ hab c
    | cons y ys =>
      simp [verLe] at hab
      cases c with
      | nil =>
        simp [verLe] at hbc ⊢
        obtain ⟨hy, hys⟩ := hbc
        subst hy
        rcases hab with hlt | ⟨hxy, hxs⟩
        · omega
        · exact ⟨hxy, ih ys [] hxs hys⟩
      | cons z zs =>
        simp [verLe] at hbc ⊢
        rcases hab with h1 | ⟨h1, h1'⟩ <;> rcases hbc with h2 | ⟨h2, h2'⟩
        · exact Or.inl (by omega)
        · exact Or.inl (by omega)
        · exact Or.inl (by omega)
        · exact Or.inr ⟨by omega, ih ys zs h1' h2'⟩

/-! ### Lemmas about resolution -/

/-- When the index publishes some release satisfying a requirement,
resolution succeeds with a satisfying release of that library. -/
theorem resolveDep_ok (idx : DepIndex) (r : Requirement)
    (h : (idx.releases r.lib).any (fun v => verLe r.minVer v) = true) :
    ∃ v, resolveDep idx r = some (r.lib, v) ∧ verLe r.minVer v = true := by
  unfold resolveDep
  rcases hl : (idx.releases r.lib).filter (fun v => verLe r.minVer v) with _ | ⟨a, as⟩
  · exfalso
    rw [List.any_eq_true] at h
    obtain ⟨x, hx, hpx⟩ := h
    have hm : x ∈ (idx.releases r.lib).filter (fun v => verLe r.minVer v) :=
      List.mem_filter.mpr ⟨hx, hpx⟩
    rw [hl] at hm
    exact absurd hm (List.not_mem_nil x)
  · refine ⟨a, rfl, ?_⟩
    have hm : a ∈ (idx.releases r.lib).filter (fun v => verLe r.minVer v) := by
      rw [hl]; exact List.mem_cons_self a as
    exact (List.mem_filter.mp hm).2

/-- When every requirement in a list has a satisfying published release,
resolving the whole list succeeds and every requirement is met by some
resolved (library, version) pair. -/
theorem resolveAll_ok (idx : DepIndex) (rs : List Requirement)
    (h : ∀ r ∈ rs, (idx.releases r.lib).any (fun v => verLe r.minVer v) = true) :
    ∃ deps, resolveAll idx rs = some deps ∧
      ∀ r ∈ rs, ∃ v, (r.lib, v) ∈ deps ∧ verLe r.minVer v = true := by
  induction rs with
  | nil => exact ⟨[], rfl, by simp⟩
  | cons r rs ih =>
    obtain ⟨v, hv, hvle⟩ := resolveDep_ok idx r (h r (List.mem_cons_self r rs))
    obtain ⟨deps, hdeps, hprop⟩ := ih (fun x hx => h x (List.mem_cons_of_mem r hx))
    refine ⟨(r.lib, v) :: deps, ?_, ?_⟩
    · simp [resolveAll, hv, hdeps]
    · intro x hx
      rcases List.mem_cons.mp hx with h1 | h2
      · subst h1; exact ⟨v, List.mem_cons_self _ _, hvle⟩
      · obtain ⟨w, hw, hwle⟩ := hprop x h2
        exact ⟨w, List.mem_cons_of_mem _ hw, hwle⟩

/-- Applying one resolved dependency set twice gives the same environment
as applying it once. -/
theorem applyResolved_idem (deps env : Env) :
    applyResolved deps (applyResolved deps env) = applyResolved deps env := by
  unfold applyResolved
  rw [List.filter_append]
  have h1 : deps.filter (fun p => deps.all (fun d => d.1 != p.1)) = [] := by
    rw [List.filter_eq_nil_iff]
    intro d hd hall
    rw [List.all_eq_true] at hall
    have := hall d hd
    simp at this
  have h2 : (env.filter (fun p => deps.all (fun d => d.1 != p.1))).filter
      (fun p => deps.all (fun d => d.1 != p.1)) =
      env.filter (fun p => deps.all (fun d => d.1 != p.1)) := by
    rw [List.filter_eq_self]
    intro a ha
    exact (List.mem_filter.mp ha).2
  rw [h1, h2, List.nil_append]

/-! ### The claims -/

/-- C1: The manifest's dependency declaration is exactly a two-element
list of (library-name, minimum-version) pairs — one requiring `twilio`
at version 9.4.6 or later and one requiring `trafilatura` at version
2.0.0 or later — and each entry parses as a valid name/minimum-version
constraint. -/
theorem claim_C1_dependency_declaration :
    install_requires = ["twilio>=9.4.6", "trafilatura>=2.0.0"] ∧
    install_requires.map parseRequirement =
      [some ⟨"twilio", [9, 4, 6]⟩, some ⟨"trafilatura", [2, 0, 0]⟩] ∧
    (∀ v, satisfiesReq ⟨"twilio", [9, 4, 6]⟩ v = verLe [9, 4, 6] v) ∧
    (∀ v, satisfiesReq ⟨"trafilatura", [2, 0, 0]⟩ v = verLe [2, 0, 0] v) :=
  ⟨by decide, by decide, fun _ => rfl, fun _ => rfl⟩

/-- C2: The manifest declares a minimum interpreter version of exactly
3.11: the constraint parses to the lower bound 3.11, and an interpreter
version satisfies it if and only if it is at or above 3.11. -/
theorem claim_C2_python_requires :
    parsePythonRequires python_requires = some [3, 11] ∧
    ∀ v, pythonOk v = verLe [3, 11] v :=
  ⟨by decide, fun _ => rfl⟩

/-- C3: Installing under an interpreter below 3.11 fails with a
version-mismatch error (for every index, so before any dependency
resolution); installing under an interpreter at or above 3.11 with an
index publishing a satisfying release for each declared dependency
succeeds, with both dependencies present at or above their declared
minimum versions. -/
theorem claim_C3_install_gate (interp : Version) (idx : DepIndex) :
    (verLe [3, 11] interp = false →
      installPkg interp idx = .error .versionMismatch) ∧
    (verLe [3, 11] interp = true →
      (∀ r ∈ parsedRequires,
        (idx.releases r.lib).any (fun v => verLe r.minVer v) = true) →
      ∃ deps, installPkg interp idx = .ok deps ∧
        ∀ r ∈ parsedRequires,
          ∃ v, (r.lib, v) ∈ deps ∧ verLe r.minVer v = true) := by
  constructor
  · intro h
    have hp : pythonOk interp = false := h
    simp [installPkg, hp]
  · intro h hres
    have hp : pythonOk interp = true := h
    obtain ⟨deps, hdeps, hprop⟩ := resolveAll_ok idx parsedRequires hres
    exact ⟨deps, by simp [installPkg, hp, hdeps], hprop⟩

/-- Witness for C3 at interpreter versions 3.10.9 and 3.11 against the
sample index. -/
theorem claim_C3_witness :
    installPkg [3, 10, 9] sampleIdx = .error .versionMismatch ∧
    ∃ deps, installPkg [3, 11] sampleIdx = .ok deps ∧
      ∀ r ∈ parsedRequires, ∃ v, (r.lib, v) ∈ deps ∧ verLe r.minVer v = true :=
  ⟨(claim_C3_install_gate [3, 10, 9] sampleIdx).1 (by decide),
   (claim_C3_install_gate [3, 11] sampleIdx).2 (by decide) (by decide)⟩

/-- C4: The declared package name equals `"blacksky-md"` and is
non-empty. -/
theorem claim_C4_name : name = "blacksky-md" ∧ name ≠ "" := by decide

/-- C5: The declared version string is `"1.0.0"` and parses as a valid
semantic version of three dot-separated non-negative integer
components. -/
theorem claim_C5_version :
    version = "1.0.0" ∧ parseVersion version = some [1, 0, 0] ∧
    ∃ a b c : Nat, parseVersion version = some [a, b, c] :=
  ⟨by decide, by decide, 1, 0, 0, by decide⟩

/-- C6: For a fixed dependency index, running the install process twice
against the unchanged manifest and index yields the same installed
dependency set as running it once. -/
theorem claim_C6_idempotent (interp : Version) (idx : DepIndex) (env : Env) :
    runInstall interp idx (runInstall interp idx env) = runInstall interp idx env := by
  cases h : installPkg interp idx with
  | error e => simp [runInstall, h]
  | ok deps => simp [runInstall, h, applyResolved_idem]

/-- C7: The package auto-discovery directive applied to the supplied
repository tree discovers no importable sub-packages: the discovered
package list is empty. -/
theorem claim_C7_no_packages :
    find_packages repoFiles = [] ∧
    evalExpr PyExpr.callFindPackages = PyVal.vList [] := by decide

/-- C8: The manifest is purely declarative: evaluating its statements
defines no functions, classes or variables, and produces exactly the
fixed declarative metadata record (name, version, discovered packages,
dependency constraints, minimum interpreter version) handed to the
packaging tool. -/
theorem claim_C8_declarative :
    evalScript setupScript = some declaredRecord ∧
    definedNames setupScript = [] := by decide

/-- C9: Each declared dependency constraint is a pure lower bound:
satisfaction is upward-closed in the version order. -/
theorem claim_C9_upward_closed :
    ∀ r ∈ parsedRequires, ∀ v w : Version,
      satisfiesReq r v = true → verLe v w = true → satisfiesReq r w = true := by
  intro r _ v w hv hvw
  exact verLe_trans r.minVer v w hv hvw

/-- Witness for C9 on the twilio constraint at versions 9.4.6 and 10. -/
theorem claim_C9_witness :
    (⟨"twilio", [9, 4, 6]⟩ : Requirement) ∈ parsedRequires ∧
    satisfiesReq ⟨"twilio", [9, 4, 6]⟩ [9, 4, 6] = true ∧
    verLe [9, 4, 6] [10] = true ∧
    satisfiesReq ⟨"twilio", [9, 4, 6]⟩ [10] = true :=
  ⟨by decide, by decide, by decide,
    claim_C9_upward_closed ⟨"twilio", [9, 4, 6]⟩ (by decide) [9, 4, 6] [10]
      (by decide) (by decide)⟩

/-- C10: The dependency declarations carry no environment markers or
conditional clauses: every constraint string is marker-free, and any two
environments satisfying the interpreter bound are presented the same
constraint set for resolution. -/
theorem claim_C10_noninterference (e1 e2 : InstallEnv)
    (_h1 : pythonOk e1.interp = true) (_h2 : pythonOk e2.interp = true) :
    (∀ s ∈ install_requires, (splitOnChar ';' s.toList).length = 1) ∧
    presentedConstraints e1 = presentedConstraints e2 ∧
    presentedConstraints e1 = parsedRequires :=
  ⟨by decide, rfl, rfl⟩

/-- Witness for C10 on two distinct compliant environments. -/
theorem claim_C10_witness :
    pythonOk [3, 11] = true ∧ pythonOk [4, 0] = true ∧
    presentedConstraints ⟨"linux", [3, 11]⟩ =
      presentedConstraints ⟨"win32", [4, 0]⟩ :=
  ⟨by decide, by decide,
    (claim_C10_noninterference ⟨"linux", [3, 11]⟩ ⟨"win32", [4, 0]⟩
      (by decide) (by decide)).2.1⟩

end BlackskyMD
